import Mathlib

/-!
Verification of the OpenRouterCodingCLI core against its specification.

The development shallowly embeds the TypeScript source:
* a `Json` type models JavaScript values produced by `JSON.parse`
  (duplicate object keys are not modelled; objects are association lists);
* pure functions of the source become Lean functions with the same names;
* effectful handlers become pure functions from an explicit environment
  (the outcomes of their awaited calls) to the ordered list of the
  side effects they issue.
-/

/-- Model of a JSON value / JavaScript data value. -/
inductive Json where
  | null : Json
  | bool (b : Bool) : Json
  | num (n : Int) : Json
  | str (s : String) : Json
  | arr (elems : List Json) : Json
  | obj (fields : List (String × Json)) : Json

/-- JavaScript truthiness of a JSON value. -/
def Json.truthy : Json → Bool
  | .null => false
  | .bool b => b
  | .num n => n != 0
  | .str s => s != ""
  | .arr _ => true
  | .obj _ => true

/-- Property access on an object field list (first binding wins; objects
with duplicate keys are outside the model). `none` is `undefined`. -/
def lookupField : List (String × Json) → String → Option Json
  | [], _ => none
  | (k2, v) :: rest, k => if k2 = k then some v else lookupField rest k

/-- Truthiness of a possibly-undefined value. -/
def truthyOpt : Option Json → Bool
  | none => false
  | some v => v.truthy

/-- `Array.isArray` refinement: the element list when the value is an array. -/
def asArray : Option Json → Option (List Json)
  | some (.arr xs) => some xs
  | _ => none

/-- Strict JS equality `s.type === t` for a string literal `t`. -/
def isTypeStr (fields : List (String × Json)) (t : String) : Bool :=
  match lookupField fields "type" with
  | some (.str t2) => t2 = t
  | _ => false

theorem lookupField_sizeOf_lt {fields : List (String × Json)} {k : String} {v : Json}
    (h : lookupField fields k = some v) : sizeOf v < sizeOf (Json.obj fields) := by
  induction fields with
  | nil => simp [lookupField] at h
  | cons hd tl ih =>
    obtain ⟨k2, v2⟩ := hd
    rw [lookupField] at h
    split at h
    · cases h
      simp
      omega
    · have := ih h
      simp at this ⊢
      omega

theorem mem_arr_sizeOf_lt {x : Json} {xs : List Json} (h : x ∈ xs) :
    sizeOf x < sizeOf (Json.arr xs) := by
  have := List.sizeOf_lt_of_mem h
  simp
  omega

theorem attach_all_eq {α : Type} (xs : List α) (f : α → Bool) :
    (xs.attach.all fun x => f x.1) = xs.all f := by
  rw [Bool.eq_iff_iff, List.all_eq_true, List.all_eq_true]
  constructor
  · intro h x hx
    exact h ⟨x, hx⟩ (List.mem_attach _ _)
  · intro h x _
    exact h x.1 x.2

/-- The values `s['anyOf'] / s['allOf'] / s['oneOf']` that are arrays,
in keyword order (source: `mcp-client.ts`, `hasValidTypes`). -/
def subSchemaArrays (fields : List (String × Json)) : List (List Json) :=
  ["anyOf", "allOf", "oneOf"].filterMap (fun kw => asArray (lookupField fields kw))

/-- The child schemas visited through `s.properties` when `s.type === 'object'`:
`Object.values` of an object, the elements of an array, nothing otherwise. -/
def propertiesChildren (fields : List (String × Json)) : List Json :=
  match lookupField fields "properties" with
  | some (.obj props) => props.map (fun p => p.2)
  | some (.arr xs) => xs
  | _ => []

/-- The child schema visited through `s.items` when `s.type === 'array'`
(the source recurses only when `s.items` is truthy). -/
def itemsChildren (fields : List (String × Json)) : List Json :=
  match lookupField fields "items" with
  | some it => if it.truthy then [it] else []
  | none => []

theorem mem_subSchemaArrays_flatten_sizeOf_lt {fields : List (String × Json)} {x : Json}
    (h : x ∈ (subSchemaArrays fields).flatten) : sizeOf x < sizeOf (Json.obj fields) := by
  rw [List.mem_flatten] at h
  obtain ⟨xs, hxs, hx⟩ := h
  rw [subSchemaArrays, List.mem_filterMap] at hxs
  obtain ⟨kw, _, hkw⟩ := hxs
  cases h3 : lookupField fields kw with
  | none => rw [h3] at hkw; simp [asArray] at hkw
  | some v =>
    cases v with
    | arr ys =>
      rw [h3] at hkw
      rw [asArray] at hkw
      injection hkw with hkw
      subst hkw
      have h1 := lookupField_sizeOf_lt h3
      have h2 := mem_arr_sizeOf_lt hx
      omega
    | null => rw [h3] at hkw; simp [asArray] at hkw
    | bool b => rw [h3] at hkw; simp [asArray] at hkw
    | num n => rw [h3] at hkw; simp [asArray] at hkw
    | str s => rw [h3] at hkw; simp [asArray] at hkw
    | obj fs => rw [h3] at hkw; simp [asArray] at hkw

theorem mem_propertiesChildren_sizeOf_lt {fields : List (String × Json)} {p : Json}
    (h : p ∈ propertiesChildren fields) : sizeOf p < sizeOf (Json.obj fields) := by
  rw [propertiesChildren] at h
  split at h
  · rename_i props heq
    rw [List.mem_map] at h
    obtain ⟨⟨k, v⟩, hm, hv⟩ := h
    subst hv
    have h1 := lookupField_sizeOf_lt heq
    have h2 := List.sizeOf_lt_of_mem hm
    simp at h1 h2
    simp
    omega
  · rename_i xs heq
    have h1 := lookupField_sizeOf_lt heq
    have h2 := mem_arr_sizeOf_lt h
    simp at h1 h2 ⊢
    omega
  · simp at h

theorem mem_itemsChildren_sizeOf_lt {fields : List (String × Json)} {it : Json}
    (h : it ∈ itemsChildren fields) : sizeOf it < sizeOf (Json.obj fields) := by
  rw [itemsChildren] at h
  split at h
  · rename_i v heq
    have h1 := lookupField_sizeOf_lt heq
    split at h
    · simp at h
      subst h
      exact h1
    · simp at h
  · simp at h

/-- Translation of `hasValidTypes` (mcp-client.ts lines 541-589).
A JSON array passes the `typeof schema === 'object'` guard in the source,
has no `type`/`anyOf`/`allOf`/`oneOf` properties, and is therefore rejected
(the sub-schema scan finds no arrays). -/
def hasValidTypes (schema : Json) : Bool :=
  match schema with
  | .obj fields =>
      (truthyOpt (lookupField fields "type")
        || (!(subSchemaArrays fields).isEmpty
            && (subSchemaArrays fields).flatten.attach.all (fun x => hasValidTypes x.1)))
      && (if isTypeStr fields "object" then
            (propertiesChildren fields).attach.all (fun p => hasValidTypes p.1)
          else true)
      && (if isTypeStr fields "array" then
            (itemsChildren fields).attach.all (fun it => hasValidTypes it.1)
          else true)
  | .arr _ => false
  | .null => true
  | .bool _ => true
  | .num _ => true
  | .str _ => true
termination_by sizeOf schema
decreasing_by
  · exact mem_subSchemaArrays_flatten_sizeOf_lt (by simpa using x.2)
  · exact mem_propertiesChildren_sizeOf_lt (by simpa using p.2)
  · exact mem_itemsChildren_sizeOf_lt (by simpa using it.2)

/-- `hasValidTypes` on an object node, with the `attach`s eliminated. -/
theorem hasValidTypes_obj (fields : List (String × Json)) :
    hasValidTypes (.obj fields) =
      ((truthyOpt (lookupField fields "type")
        || (!(subSchemaArrays fields).isEmpty
            && (subSchemaArrays fields).flatten.all hasValidTypes))
      && (if isTypeStr fields "object" then
            (propertiesChildren fields).all hasValidTypes
          else true)
      && (if isTypeStr fields "array" then
            (itemsChildren fields).all hasValidTypes
          else true)) := by
  rw [hasValidTypes]
  rw [attach_all_eq, attach_all_eq, attach_all_eq]

theorem asArray_eq_some {o : Option Json} {xs : List Json} (h : asArray o = some xs) :
    o = some (Json.arr xs) := by
  cases o with
  | none => simp [asArray] at h
  | some v =>
    cases v with
    | arr ys => rw [asArray] at h; injection h with h; rw [h]
    | null => simp [asArray] at h
    | bool b => simp [asArray] at h
    | num n => simp [asArray] at h
    | str s => simp [asArray] at h
    | obj fs => simp [asArray] at h

theorem asArray_lookup_mem_sizeOf_lt {fields : List (String × Json)} {kw : String}
    {xs : List Json} {x : Json} (h : asArray (lookupField fields kw) = some xs)
    (hx : x ∈ xs) : sizeOf x < sizeOf (Json.obj fields) := by
  have h1 := lookupField_sizeOf_lt (asArray_eq_some h)
  have h2 := mem_arr_sizeOf_lt hx
  omega

/-- The members of `s[kw]` when it is an array, else nothing. -/
def kwMembers (fields : List (String × Json)) (kw : String) : List Json :=
  match asArray (lookupField fields kw) with
  | some xs => xs
  | none => []

/-- Whether `s[kw]` is a non-empty array. -/
def kwIsNonEmptyArr (fields : List (String × Json)) (kw : String) : Bool :=
  match asArray (lookupField fields kw) with
  | some xs => !xs.isEmpty
  | none => false

/-- The property schemas of a node, as the claim reads them. -/
def claimProps (fields : List (String × Json)) : List Json :=
  match lookupField fields "properties" with
  | some (.obj props) => props.map (fun p => p.2)
  | _ => []

/-- The items schema of a node, as the claim reads it. -/
def claimItems (fields : List (String × Json)) : List Json :=
  match lookupField fields "items" with
  | some it => [it]
  | none => []

theorem mem_kwMembers_sizeOf_lt {fields : List (String × Json)} {kw : String} {x : Json}
    (h : x ∈ kwMembers fields kw) : sizeOf x < sizeOf (Json.obj fields) := by
  rw [kwMembers] at h
  split at h
  · rename_i xs heq
    exact asArray_lookup_mem_sizeOf_lt heq h
  · simp at h

theorem mem_claimProps_sizeOf_lt {fields : List (String × Json)} {p : Json}
    (h : p ∈ claimProps fields) : sizeOf p < sizeOf (Json.obj fields) := by
  rw [claimProps] at h
  split at h
  · rename_i props heq
    rw [List.mem_map] at h
    obtain ⟨⟨k, v⟩, hm, hv⟩ := h
    subst hv
    have h1 := lookupField_sizeOf_lt heq
    have h2 := List.sizeOf_lt_of_mem hm
    simp at h1 h2
    simp
    omega
  · simp at h

theorem mem_claimItems_sizeOf_lt {fields : List (String × Json)} {it : Json}
    (h : it ∈ claimItems fields) : sizeOf it < sizeOf (Json.obj fields) := by
  rw [claimItems] at h
  split at h
  · rename_i v heq
    simp at h
    subst h
    exact lookupField_sizeOf_lt heq
  · simp at h

/-- The claim C5 sentence, formalised word for word: a node is valid iff it
either has a `type` field or has a non-empty `anyOf`/`allOf`/`oneOf` array all
of whose members recursively satisfy the same condition; the nodes are the
root, the property schemas of object-typed nodes, the items schema of
array-typed nodes and every member of an `anyOf`/`allOf`/`oneOf` array;
non-object values are valid. -/
def claimValid (schema : Json) : Bool :=
  match schema with
  | .obj fields =>
      ((lookupField fields "type").isSome
        || (kwIsNonEmptyArr fields "anyOf"
            && (kwMembers fields "anyOf").attach.all (fun x => claimValid x.1))
        || (kwIsNonEmptyArr fields "allOf"
            && (kwMembers fields "allOf").attach.all (fun x => claimValid x.1))
        || (kwIsNonEmptyArr fields "oneOf"
            && (kwMembers fields "oneOf").attach.all (fun x => claimValid x.1)))
      && (kwMembers fields "anyOf").attach.all (fun x => claimValid x.1)
      && (kwMembers fields "allOf").attach.all (fun x => claimValid x.1)
      && (kwMembers fields "oneOf").attach.all (fun x => claimValid x.1)
      && (if isTypeStr fields "object" then
            (claimProps fields).attach.all (fun p => claimValid p.1)
          else true)
      && (if isTypeStr fields "array" then
            (claimItems fields).attach.all (fun it => claimValid it.1)
          else true)
  | _ => true
termination_by sizeOf schema
decreasing_by
  all_goals first
  | exact mem_kwMembers_sizeOf_lt (by simpa using x.2)
  | exact mem_claimProps_sizeOf_lt (by simpa using p.2)
  | exact mem_claimItems_sizeOf_lt (by simpa using it.2)

/-- `claimValid` on an object node, with the `attach`s eliminated. -/
theorem claimValid_obj (fields : List (String × Json)) :
    claimValid (.obj fields) =
      (((lookupField fields "type").isSome
        || (kwIsNonEmptyArr fields "anyOf" && (kwMembers fields "anyOf").all claimValid)
        || (kwIsNonEmptyArr fields "allOf" && (kwMembers fields "allOf").all claimValid)
        || (kwIsNonEmptyArr fields "oneOf" && (kwMembers fields "oneOf").all claimValid))
      && (kwMembers fields "anyOf").all claimValid
      && (kwMembers fields "allOf").all claimValid
      && (kwMembers fields "oneOf").all claimValid
      && (if isTypeStr fields "object" then (claimProps fields).all claimValid else true)
      && (if isTypeStr fields "array" then (claimItems fields).all claimValid else true)) := by
  rw [claimValid]
  simp only [attach_all_eq]

/-- C5 counterexample. The claim's characterisation of `hasValidTypes`
disagrees with the source in both directions: a node whose `anyOf` is the
empty array is accepted by the source but has neither a `type` nor a
non-empty sub-schema array; a node whose `type` is the empty string has a
`type` field but is rejected (the source tests truthiness); a node with a
truthy `type` and an invalid `anyOf` member is accepted because the source
only scans sub-schema arrays when `type` is falsy. -/
theorem hasValidTypes_claim_counterexample :
    (hasValidTypes (Json.obj [("anyOf", Json.arr [])]) = true
      ∧ claimValid (Json.obj [("anyOf", Json.arr [])]) = false)
    ∧ (hasValidTypes (Json.obj [("type", Json.str "")]) = false
      ∧ claimValid (Json.obj [("type", Json.str "")]) = true)
    ∧ (hasValidTypes
        (Json.obj [("type", Json.str "string"), ("anyOf", Json.arr [Json.obj []])]) = true
      ∧ claimValid
        (Json.obj [("type", Json.str "string"), ("anyOf", Json.arr [Json.obj []])]) = false) := by
  refine ⟨⟨?_, ?_⟩, ⟨?_, ?_⟩, ⟨?_, ?_⟩⟩
  · simp [hasValidTypes_obj, subSchemaArrays, asArray, lookupField, truthyOpt, isTypeStr,
      propertiesChildren, itemsChildren]
  · simp [claimValid_obj, kwIsNonEmptyArr, kwMembers, asArray, lookupField, isTypeStr,
      claimProps, claimItems]
  · simp [hasValidTypes_obj, subSchemaArrays, asArray, lookupField, truthyOpt, isTypeStr,
      propertiesChildren, itemsChildren, Json.truthy]
  · simp [claimValid_obj, kwIsNonEmptyArr, kwMembers, asArray, lookupField, isTypeStr,
      claimProps, claimItems]
  · simp [hasValidTypes_obj, subSchemaArrays, asArray, lookupField, truthyOpt, isTypeStr,
      propertiesChildren, itemsChildren, Json.truthy]
  · simp [claimValid_obj, kwIsNonEmptyArr, kwMembers, asArray, lookupField, isTypeStr,
      claimProps, claimItems]

/-- The amended C5 node predicate: a schema tree is valid when every visited
node either has a truthy `type` or has at least one of `anyOf`/`allOf`/`oneOf`
bound to an array (possibly empty); from a node with a falsy `type` the scan
visits the members of those arrays, from a node typed `object` it visits the
property schemas, and from a node typed `array` it visits the truthy items
schema; primitive values are valid and a JSON array is never a valid node. -/
inductive AmendedValid : Json → Prop where
  | null : AmendedValid .null
  | bool (b : Bool) : AmendedValid (.bool b)
  | num (n : Int) : AmendedValid (.num n)
  | str (s : String) : AmendedValid (.str s)
  | node (fields : List (String × Json))
      (hok : truthyOpt (lookupField fields "type") = true ∨ subSchemaArrays fields ≠ [])
      (hsub : truthyOpt (lookupField fields "type") = false →
        ∀ x ∈ (subSchemaArrays fields).flatten, AmendedValid x)
      (hprops : isTypeStr fields "object" = true →
        ∀ p ∈ propertiesChildren fields, AmendedValid p)
      (hitems : isTypeStr fields "array" = true →
        ∀ it ∈ itemsChildren fields, AmendedValid it) :
      AmendedValid (.obj fields)

/-- C5, amended: `hasValidTypes` accepts exactly the schemas satisfying the
amended node predicate. -/
theorem hasValidTypes_iff_amendedValid (j : Json) :
    hasValidTypes j = true ↔ AmendedValid j := by
  induction' hn : sizeOf j using Nat.strong_induction_on with n ih generalizing j
  cases j with
  | null => exact ⟨fun _ => .null, fun _ => by rw [hasValidTypes]⟩
  | bool b => exact ⟨fun _ => .bool b, fun _ => by rw [hasValidTypes]⟩
  | num m => exact ⟨fun _ => .num m, fun _ => by rw [hasValidTypes]⟩
  | str s => exact ⟨fun _ => .str s, fun _ => by rw [hasValidTypes]⟩
  | arr xs =>
    constructor
    · intro h
      rw [hasValidTypes] at h
      cases h
    · intro h
      cases h
  | obj fields =>
    subst hn
    rw [hasValidTypes_obj]
    constructor
    · intro h
      rw [Bool.and_eq_true_iff, Bool.and_eq_true_iff] at h
      obtain ⟨⟨h1, h2⟩, h3⟩ := h
      refine AmendedValid.node fields ?_ ?_ ?_ ?_
      · rcases Bool.or_eq_true_iff.mp h1 with ht | hs
        · exact Or.inl ht
        · rw [Bool.and_eq_true_iff] at hs
          refine Or.inr ?_
          simpa using hs.1
      · intro htf x hx
        rcases Bool.or_eq_true_iff.mp h1 with ht | hs
        · rw [htf] at ht
          cases ht
        · rw [Bool.and_eq_true_iff] at hs
          have hall := List.all_eq_true.mp hs.2 x hx
          exact (ih _ (mem_subSchemaArrays_flatten_sizeOf_lt hx) x rfl).mp hall
      · intro hobj p hp
        rw [if_pos hobj] at h2
        have hall := List.all_eq_true.mp h2 p hp
        exact (ih _ (mem_propertiesChildren_sizeOf_lt hp) p rfl).mp hall
      · intro harr it hit
        rw [if_pos harr] at h3
        have hall := List.all_eq_true.mp h3 it hit
        exact (ih _ (mem_itemsChildren_sizeOf_lt hit) it rfl).mp hall
    · intro h
      cases h with
      | node _ hok hsub hprops hitems =>
        rw [Bool.and_eq_true_iff, Bool.and_eq_true_iff]
        refine ⟨⟨?_, ?_⟩, ?_⟩
        · cases htv : truthyOpt (lookupField fields "type") with
          | true => simp
          | false =>
            have hne : subSchemaArrays fields ≠ [] := by
              rcases hok with hk | hk
              · rw [htv] at hk
                cases hk
              · exact hk
            have hie : (!(subSchemaArrays fields).isEmpty) = true := by
              simpa using hne
            have hall : (subSchemaArrays fields).flatten.all hasValidTypes = true := by
              rw [List.all_eq_true]
              intro x hx
              exact (ih _ (mem_subSchemaArrays_flatten_sizeOf_lt hx) x rfl).mpr
                (hsub htv x hx)
            simp [hie, hall]
        · split
          · rename_i hobj
            rw [List.all_eq_true]
            intro p hp
            exact (ih _ (mem_propertiesChildren_sizeOf_lt hp) p rfl).mpr (hprops hobj p hp)
          · rfl
        · split
          · rename_i harr
            rw [List.all_eq_true]
            intro it hit
            exact (ih _ (mem_itemsChildren_sizeOf_lt hit) it rfl).mpr (hitems harr it hit)
          · rfl

/-! ### FileDiscoveryService (unnamed/part_003) -/

/-- A loaded ignore filter, represented by its `isIgnored` predicate. -/
structure FileDiscoveryService where
  gitIgnoreFilter : Option (String → Bool)
  casualresearchIgnoreFilter : Option (String → Bool)

/-- The options record of `filterFiles` / `shouldIgnoreFile`; a missing
field is `undefined`, and an omitted record is `none`. -/
structure FilterFilesOptions where
  respectGitIgnore : Option Bool
  respectcasualresearchIgnore : Option Bool

/-- Translation of `FileDiscoveryService.shouldGitIgnoreFile`. -/
def shouldGitIgnoreFile (svc : FileDiscoveryService) (filePath : String) : Bool :=
  match svc.gitIgnoreFilter with
  | some f => f filePath
  | none => false

/-- Translation of `FileDiscoveryService.shouldcasualresearchIgnoreFile`. -/
def shouldcasualresearchIgnoreFile (svc : FileDiscoveryService) (filePath : String) : Bool :=
  match svc.casualresearchIgnoreFilter with
  | some f => f filePath
  | none => false

/-- Translation of `FileDiscoveryService.filterFiles` (part_003 lines 46-65).
The parameter default applies only when the record is omitted; inside the
body each field is tested for truthiness, so an absent field skips its
check. -/
def filterFiles (svc : FileDiscoveryService) (filePaths : List String)
    (options : Option FilterFilesOptions) : List String :=
  let opts := options.getD ⟨some true, some true⟩
  filePaths.filter (fun filePath =>
    if opts.respectGitIgnore.getD false && shouldGitIgnoreFile svc filePath then
      false
    else if opts.respectcasualresearchIgnore.getD false
        && shouldcasualresearchIgnoreFile svc filePath then
      false
    else true)

/-- Translation of `FileDiscoveryService.shouldIgnoreFile` (part_003 lines
90-103). Destructuring defaults make an absent field default to `true`. -/
def shouldIgnoreFile (svc : FileDiscoveryService) (filePath : String)
    (options : Option FilterFilesOptions) : Bool :=
  let opts := options.getD ⟨none, none⟩
  let respectGitIgnore := opts.respectGitIgnore.getD true
  let respectcasualresearchIgnore := opts.respectcasualresearchIgnore.getD true
  if respectGitIgnore && shouldGitIgnoreFile svc filePath then true
  else if respectcasualresearchIgnore && shouldcasualresearchIgnoreFile svc filePath then
    true
  else false

/-- C10 counterexample: with options specifying only `respectGitIgnore:
false`, `filterFiles` skips the project-ignore check (absent field is
falsy) while `shouldIgnoreFile` applies it (absent field defaults to
`true`), so the batch filter and the single-path predicate disagree. -/
theorem filterFiles_shouldIgnoreFile_counterexample :
    filterFiles ⟨none, some (fun p => p == "a")⟩ ["a"]
        (some ⟨some false, none⟩) = ["a"]
    ∧ List.filter (fun p =>
        !(shouldIgnoreFile ⟨none, some (fun q => q == "a")⟩ p
          (some ⟨some false, none⟩))) ["a"] = []
    ∧ filterFiles ⟨none, some (fun p => p == "a")⟩ ["a"]
        (some ⟨some false, none⟩)
      ≠ List.filter (fun p =>
          !(shouldIgnoreFile ⟨none, some (fun q => q == "a")⟩ p
            (some ⟨some false, none⟩))) ["a"] := by
  refine ⟨?_, ?_, ?_⟩ <;>
    simp [filterFiles, shouldIgnoreFile, shouldGitIgnoreFile,
      shouldcasualresearchIgnoreFile]

/-- C10, amended: `filterFiles` returns exactly the paths on which
`shouldIgnoreFile` is false whenever the options record is omitted or
specifies both fields explicitly; only partially-specified records
disagree. -/
theorem filterFiles_eq_filter_not_shouldIgnoreFile (svc : FileDiscoveryService)
    (paths : List String) (options : Option FilterFilesOptions)
    (h : options = none ∨ ∃ b1 b2, options = some ⟨some b1, some b2⟩) :
    filterFiles svc paths options
      = paths.filter (fun p => !(shouldIgnoreFile svc p options)) := by
  rcases h with h | ⟨b1, b2, h⟩ <;> subst h
  · simp only [filterFiles, shouldIgnoreFile]
    apply List.filter_congr
    intro p _
    simp only [Option.getD_none, Option.getD_some]
    cases hg : shouldGitIgnoreFile svc p <;>
      cases hc : shouldcasualresearchIgnoreFile svc p <;> simp [hg, hc]
  · simp only [filterFiles, shouldIgnoreFile]
    apply List.filter_congr
    intro p _
    simp only [Option.getD_none, Option.getD_some]
    cases b1 <;> cases b2 <;>
      cases hg : shouldGitIgnoreFile svc p <;>
        cases hc : shouldcasualresearchIgnoreFile svc p <;> simp [hg, hc]

/-- Witness for the amended C10 theorem at a concrete service, path list
and omitted options. -/
theorem filterFiles_eq_filter_not_shouldIgnoreFile_witness :
    filterFiles ⟨none, some (fun p => p == "a")⟩ ["a", "b"] none
      = List.filter (fun p =>
          !(shouldIgnoreFile ⟨none, some (fun q => q == "a")⟩ p none))
          ["a", "b"] :=
  filterFiles_eq_filter_not_shouldIgnoreFile _ _ _ (Or.inl rfl)

/-! ### Turn.run exception handling (models.ts lines 260-292) -/

/-- The error value reaching the catch-handler of `Turn.run` after
`toFriendlyError`: whether it is an `UnauthorizedError`, its
`getErrorMessage` value, and its `status` field when that is a number. -/
structure FriendlyError where
  isUnauthorized : Bool
  message : String
  status : Option Int
deriving DecidableEq

/-- The stream events a `Turn.run` catch-handler can emit. -/
inductive CatchEvent where
  | userCancelled : CatchEvent
  | errorEvent (message : String) (status : Option Int) : CatchEvent
deriving DecidableEq

/-- Outcome of the catch-handler: re-raise, or emit events and end. -/
inductive TurnCatchResult where
  | raised (e : FriendlyError) : TurnCatchResult
  | emitted (evs : List CatchEvent) : TurnCatchResult
deriving DecidableEq

/-- Translation of the catch-handler of `Turn.run` (models.ts lines
260-292): the `UnauthorizedError` test precedes the `signal.aborted`
test; `reportError` and `maybeIncludeSchemaDepthContext` are external
effects that leave the structured error as constructed. -/
def turnRunCatch (error : FriendlyError) (aborted : Bool) : TurnCatchResult :=
  if error.isUnauthorized then .raised error
  else if aborted then .emitted [.userCancelled]
  else .emitted [.errorEvent error.message error.status]

/-- C3 counterexample: when the caught error is auth-unauthorized and the
cancellation signal is aborted, `Turn.run` re-raises instead of emitting
`UserCancelled`, because the source tests `UnauthorizedError` first while
the claim gives the aborted case priority. -/
theorem turnRunCatch_counterexample :
    turnRunCatch ⟨true, "unauthorized", none⟩ true
        = .raised ⟨true, "unauthorized", none⟩
    ∧ turnRunCatch ⟨true, "unauthorized", none⟩ true
        ≠ .emitted [.userCancelled] := by
  refine ⟨rfl, ?_⟩
  decide

/-- C3, amended: on an exception, the auth-unauthorized test comes first
and re-raises even when the signal is aborted; otherwise an aborted signal
yields exactly a `UserCancelled` event; otherwise exactly one `Error`
event carrying the error message and its numeric status is emitted. -/
theorem turnRunCatch_cases (e : FriendlyError) (aborted : Bool) :
    (e.isUnauthorized = true → turnRunCatch e aborted = .raised e)
    ∧ (e.isUnauthorized = false → aborted = true →
        turnRunCatch e aborted = .emitted [.userCancelled])
    ∧ (e.isUnauthorized = false → aborted = false →
        turnRunCatch e aborted = .emitted [.errorEvent e.message e.status]) := by
  refine ⟨fun h => ?_, fun h ha => ?_, fun h ha => ?_⟩
  · simp [turnRunCatch, h]
  · simp [turnRunCatch, h, ha]
  · simp [turnRunCatch, h, ha]

/-- Witness for the amended C3 theorem: a plain backend error with numeric
status 503 produces exactly one `Error` event with that status. -/
theorem turnRunCatch_cases_witness :
    turnRunCatch ⟨false, "boom", some 503⟩ false
      = .emitted [.errorEvent "boom" (some 503)] :=
  (turnRunCatch_cases ⟨false, "boom", some 503⟩ false).2.2 rfl rfl

/-! ### OpenRouter response conversion (unnamed/part_004) -/

/-- The `function` member of a chat-completions tool call entry; absent or
null string fields are `none`. -/
structure ORFunction where
  name : Option String
  arguments : Option String

/-- One entry of `tool_calls`. Entries are modelled as objects; a null
entry (on which `toolCall.function` would throw) and a truthy non-array
`tool_calls` (on which `.map` would throw) are outside the model. -/
structure ORToolCall where
  function : Option ORFunction

/-- A streaming `choices[i].delta`. -/
structure ORDelta where
  tool_calls : Option (List ORToolCall)
  content : Option String

/-- A streaming `choices[i]`. -/
structure ORStreamChoice where
  delta : Option ORDelta
  finish_reason : Option String

/-- A parsed streaming chunk. -/
structure ORStreamChunk where
  choices : Option (List ORStreamChoice)

/-- A non-streaming `choices[i].message`. -/
structure ORMessage where
  tool_calls : Option (List ORToolCall)
  content : Option String

/-- A non-streaming `choices[i]`. -/
structure ORChoice where
  message : Option ORMessage
  finish_reason : Option String

/-- A parsed non-streaming response body. -/
structure ORResponse where
  choices : Option (List ORChoice)

/-- A part of the converted candidate. -/
inductive ConvPart where
  | functionCall (name : String) (args : Json) : ConvPart
  | text (s : String) : ConvPart

/-- Whether a converted part is a `Text` part. -/
def isTextPart : ConvPart → Bool
  | .text _ => true
  | .functionCall _ _ => false

/-- The converted candidate (`usageMetadata` and the unused scaffold
fields are omitted). -/
structure ConvResponse where
  parts : List ConvPart
  finishReason : Option String
  text : String

/-- `toolCall.function?.arguments || '\x7b\x7d'`. -/
def argumentsOrDefault : Option String → String
  | some s => if s = "" then "\x7b\x7d" else s
  | none => "\x7b\x7d"

/-- `x || undefined`: a falsy string collapses to `undefined`. -/
def falsyToNone : Option String → Option String
  | some s => if s = "" then none else some s
  | none => none

/-- `x || 'STOP'`. -/
def orSTOP : Option String → String
  | some s => if s = "" then "STOP" else s
  | none => "STOP"

/-- Conversion of one `tool_calls` entry (part_004 lines 329-334 and
379-387): a `FunctionCall` part with `args =
JSON.parse(arguments || '\x7b\x7d')`; a parse failure throws. -/
def convertToolCallEntry (parse : String → Option Json) (tc : ORToolCall) :
    Except Unit ConvPart :=
  match parse (argumentsOrDefault (tc.function.bind (fun f => f.arguments))) with
  | some args =>
      pure (ConvPart.functionCall ((tc.function.bind (fun f => f.name)).getD "") args)
  | none => Except.error ()

/-- `tool_calls.map(...)` over the entries: the leftmost parse failure
throws and aborts the whole conversion, as the JS `Array.map` does. -/
def convertToolCallList (parse : String → Option Json) :
    List ORToolCall → Except Unit (List ConvPart)
  | [] => .ok []
  | tc :: rest =>
    match convertToolCallEntry parse tc with
    | .error e => .error e
    | .ok p =>
      match convertToolCallList parse rest with
      | .error e => .error e
      | .ok ps => .ok (p :: ps)

/-- Translation of `convertFromOpenRouterFormat` with `isStreaming = true`
(part_004 lines 323-368). `parse` models `JSON.parse` on the `arguments`
strings. -/
def convertFromOpenRouterStreaming (parse : String → Option Json)
    (data : ORStreamChunk) : Except Unit (Option ConvResponse) := do
  let choice0 := data.choices.bind List.head?
  let delta := choice0.bind (fun c => c.delta)
  match delta.bind (fun d => d.tool_calls) with
  | some tcs =>
      let parts ← convertToolCallList parse tcs
      pure (some { parts := parts,
                   finishReason := falsyToNone (choice0.bind (fun c => c.finish_reason)),
                   text := "" })
  | none =>
      match delta.bind (fun d => d.content) with
      | some c =>
          if c = "" then pure none
          else
            pure (some { parts := [ConvPart.text c],
                         finishReason := falsyToNone (choice0.bind (fun c => c.finish_reason)),
                         text := c })
      | none => pure none

/-- Translation of `convertFromOpenRouterFormat` with `isStreaming = false`
(part_004 lines 369-418). -/
def convertFromOpenRouterNonStreaming (parse : String → Option Json)
    (data : ORResponse) : Except Unit ConvResponse := do
  let choice := data.choices.bind List.head?
  let message := choice.bind (fun c => c.message)
  let content := (message.bind (fun m => m.content)).getD ""
  let tcParts ← (match message.bind (fun m => m.tool_calls) with
    | some tcs =>
        if tcs.length > 0 then convertToolCallList parse tcs
        else pure []
    | none => pure [])
  let parts := tcParts ++ (if content = "" then [] else [ConvPart.text content])
  let parts := if parts.isEmpty then [ConvPart.text content] else parts
  pure { parts := parts,
         finishReason := some (orSTOP (choice.bind (fun c => c.finish_reason))),
         text := content }

/-- The claim's per-entry conversion: a `FunctionCall` part whose args are
`JSON.parse(arguments || '\x7b\x7d')`, when that parse succeeds. -/
def specToolCallPart (parse : String → Option Json) (tc : ORToolCall) : Option ConvPart :=
  match parse (argumentsOrDefault (tc.function.bind (fun f => f.arguments))) with
  | some args => some (ConvPart.functionCall ((tc.function.bind (fun f => f.name)).getD "") args)
  | none => none

/-- The claim's conversion of a whole `tool_calls` list, defined when every
entry's arguments parse. -/
def specToolCallParts (parse : String → Option Json) :
    List ORToolCall → Option (List ConvPart)
  | [] => some []
  | tc :: rest =>
    match specToolCallPart parse tc with
    | none => none
    | some p =>
      match specToolCallParts parse rest with
      | none => none
      | some ps => some (p :: ps)


theorem convertToolCallList_eq_spec {parse : String → Option Json}
    {tcs : List ORToolCall} {ps : List ConvPart}
    (h : specToolCallParts parse tcs = some ps) :
    convertToolCallList parse tcs = Except.ok ps := by
  induction tcs generalizing ps with
  | nil =>
    rw [specToolCallParts] at h
    injection h with h
    subst h
    rfl
  | cons tc rest ih =>
    rw [specToolCallParts] at h
    cases hp : specToolCallPart parse tc with
    | none => rw [hp] at h; cases h
    | some p =>
      rw [hp] at h
      cases hrest : specToolCallParts parse rest with
      | none => rw [hrest] at h; cases h
      | some qs =>
        rw [hrest] at h
        injection h with h
        subst h
        rw [specToolCallPart] at hp
        cases hargs : parse (argumentsOrDefault (tc.function.bind (fun f => f.arguments))) with
        | none => rw [hargs] at hp; cases hp
        | some args =>
          rw [hargs] at hp
          injection hp with hp
          subst hp
          rw [convertToolCallList, convertToolCallEntry, hargs, ih hrest]
          rfl

theorem specToolCallParts_no_text {parse : String → Option Json}
    {tcs : List ORToolCall} {ps : List ConvPart}
    (h : specToolCallParts parse tcs = some ps) :
    ps.all (fun p => !isTextPart p) = true := by
  induction tcs generalizing ps with
  | nil =>
    rw [specToolCallParts] at h
    injection h with h
    subst h
    rfl
  | cons tc rest ih =>
    rw [specToolCallParts] at h
    cases hp : specToolCallPart parse tc with
    | none => rw [hp] at h; cases h
    | some p =>
      rw [hp] at h
      cases hrest : specToolCallParts parse rest with
      | none => rw [hrest] at h; cases h
      | some qs =>
        rw [hrest] at h
        injection h with h
        subst h
        rw [List.all_cons, Bool.and_eq_true_iff]
        refine ⟨?_, ih hrest⟩
        rw [specToolCallPart] at hp
        cases hargs : parse (argumentsOrDefault (tc.function.bind (fun f => f.arguments))) with
        | none => rw [hargs] at hp; cases hp
        | some args =>
          rw [hargs] at hp
          injection hp with hp
          subst hp
          rfl

theorem specToolCallParts_length {parse : String → Option Json}
    {tcs : List ORToolCall} {ps : List ConvPart}
    (h : specToolCallParts parse tcs = some ps) :
    ps.length = tcs.length := by
  induction tcs generalizing ps with
  | nil =>
    rw [specToolCallParts] at h
    injection h with h
    subst h
    rfl
  | cons tc rest ih =>
    rw [specToolCallParts] at h
    cases hp : specToolCallPart parse tc with
    | none => rw [hp] at h; cases h
    | some p =>
      rw [hp] at h
      cases hrest : specToolCallParts parse rest with
      | none => rw [hrest] at h; cases h
      | some qs =>
        rw [hrest] at h
        injection h with h
        subst h
        simp [ih hrest]

/-- A concrete `JSON.parse` fragment used by witnesses: parses only the
empty-object source text. -/
def parseEx : String → Option Json :=
  fun s => if s = "\x7b\x7d" then some (Json.obj []) else none

/-- C4 counterexample: a streaming delta carrying both a tool call and the
content text "hi" converts to a candidate with the `FunctionCall` part
only — the content is discarded, so it never becomes a `Text` part. -/
theorem convertFromOpenRouterFormat_counterexample :
    convertFromOpenRouterStreaming parseEx
        ⟨some [⟨some ⟨some [⟨some ⟨some "f", some ""⟩⟩], some "hi"⟩, none⟩]⟩
      = Except.ok (some ⟨[ConvPart.functionCall "f" (Json.obj [])], none, ""⟩)
    ∧ ([ConvPart.functionCall "f" (Json.obj [])].all (fun p => !isTextPart p)) = true := by
  constructor
  · rfl
  · rfl

/-- C4, amended: each `tool_calls` entry becomes a `FunctionCall` part with
`args = JSON.parse(arguments || '\x7b\x7d')` in both modes; in
non-streaming mode non-empty content is appended as a `Text` part after
all `FunctionCall` parts (and is the sole part when there are no tool
calls); in streaming mode, whenever `tool_calls` is present the delta's
content is ignored, and content becomes a `Text` part only when
`tool_calls` is absent. -/
theorem convertFromOpenRouterFormat_amended (parse : String → Option Json)
    (d : ORDelta) (fr : Option String) (rest : List ORStreamChoice)
    (msg : ORMessage) (fr2 : Option String) (rest2 : List ORChoice)
    (tcs : List ORToolCall) (ps : List ConvPart) :
    (d.tool_calls = some tcs → specToolCallParts parse tcs = some ps →
      convertFromOpenRouterStreaming parse ⟨some (⟨some d, fr⟩ :: rest)⟩
        = Except.ok (some ⟨ps, falsyToNone fr, ""⟩)
      ∧ ps.all (fun p => !isTextPart p) = true)
    ∧ (d.tool_calls = none →
      convertFromOpenRouterStreaming parse ⟨some (⟨some d, fr⟩ :: rest)⟩
        = Except.ok (match d.content with
            | some c => if c = "" then none
                else some ⟨[ConvPart.text c], falsyToNone fr, c⟩
            | none => none))
    ∧ (msg.tool_calls = some tcs → tcs ≠ [] →
       specToolCallParts parse tcs = some ps →
      convertFromOpenRouterNonStreaming parse ⟨some (⟨some msg, fr2⟩ :: rest2)⟩
        = Except.ok ⟨ps ++ (if msg.content.getD "" = "" then []
              else [ConvPart.text (msg.content.getD "")]),
            some (orSTOP fr2), msg.content.getD ""⟩)
    ∧ (msg.tool_calls = none →
      convertFromOpenRouterNonStreaming parse ⟨some (⟨some msg, fr2⟩ :: rest2)⟩
        = Except.ok ⟨[ConvPart.text (msg.content.getD "")],
            some (orSTOP fr2), msg.content.getD ""⟩) := by
  refine ⟨fun htc hsp => ⟨?_, specToolCallParts_no_text hsp⟩, fun htc => ?_,
    fun htc hne hsp => ?_, fun htc => ?_⟩
  · simp only [convertFromOpenRouterStreaming, Option.bind, List.head?, htc,
      convertToolCallList_eq_spec hsp]
    rfl
  · simp only [convertFromOpenRouterStreaming, Option.bind, List.head?, htc]
    cases hc : d.content with
    | none => rfl
    | some c =>
      by_cases hce : c = "" <;> simp [hce, pure, Except.pure]
  · have hpos : tcs.length > 0 := List.length_pos.mpr hne
    have hps : ¬(ps = []) := by
      intro hempty
      subst hempty
      have := specToolCallParts_length hsp
      simp at this
      omega
    simp only [convertFromOpenRouterNonStreaming, Option.bind, List.head?, htc,
      if_pos hpos, convertToolCallList_eq_spec hsp]
    have hie : (ps ++ (if msg.content.getD "" = "" then []
        else [ConvPart.text (msg.content.getD "")])).isEmpty = false := by
      cases ps with
      | nil => exact absurd rfl hps
      | cons p ps2 => rfl
    simp only [bind, Except.bind, hie]
    rfl
  · simp only [convertFromOpenRouterNonStreaming, Option.bind, List.head?, htc]
    cases hc : msg.content with
    | none => rfl
    | some c =>
      by_cases hce : c = "" <;>
        simp [hce, pure, Except.pure, bind, Except.bind]

/-- Witness for the amended C4 theorem: a non-streaming message with one
tool call and content "hi" yields the `FunctionCall` part followed by the
`Text` part. -/
theorem convertFromOpenRouterFormat_amended_witness :
    convertFromOpenRouterNonStreaming parseEx
        ⟨some [⟨some ⟨some [⟨some ⟨some "g", none⟩⟩], some "hi"⟩, none⟩]⟩
      = Except.ok ⟨[ConvPart.functionCall "g" (Json.obj []), ConvPart.text "hi"],
          some "STOP", "hi"⟩ := by
  have h := (convertFromOpenRouterFormat_amended parseEx ⟨none, none⟩ none []
      ⟨some [⟨some ⟨some "g", none⟩⟩], some "hi"⟩ none []
      [⟨some ⟨some "g", none⟩⟩] [ConvPart.functionCall "g" (Json.obj [])]).2.2.1
      rfl (by simp) rfl
  simpa using h

/-! ### OpenRouter SSE stream generator (unnamed/part_004 lines 129-211) -/

/-- Translation of the per-line loop of `createStreamGenerator` (part_004
lines 180-211). The byte stream is decoded and split at newlines upstream
of this loop; the model receives the resulting complete lines in order.
`convert` stands for `convertFromOpenRouterFormat(·, true)` applied to the
parsed payload; `Except.error` models a conversion throw, which the loop
swallows together with `JSON.parse` failures. -/
def createStreamGenerator (parse : String → Option Json)
    (convert : Json → Except Unit (Option ConvResponse)) :
    List String → List ConvResponse
  | [] => []
  | line :: rest =>
    if line.startsWith "data: " then
      if ((line.drop 6).trim) = "[DONE]" then []
      else
        match parse ((line.drop 6).trim) with
        | none => createStreamGenerator parse convert rest
        | some data =>
          match convert data with
          | .error _ => createStreamGenerator parse convert rest
          | .ok none => createStreamGenerator parse convert rest
          | .ok (some r) => r :: createStreamGenerator parse convert rest
    else createStreamGenerator parse convert rest

/-- A line that terminates the stream: a `data: ` line whose trimmed
payload is the `[DONE]` sentinel. -/
def isDoneLine (line : String) : Bool :=
  line.startsWith "data: " && (((line.drop 6).trim) == "[DONE]")

/-- The claim's per-line output: a non-sentinel `data: ` line yields the
converted response when the payload parses and the conversion neither
throws nor returns null; every other line yields nothing. -/
def lineOutput (parse : String → Option Json)
    (convert : Json → Except Unit (Option ConvResponse))
    (line : String) : Option ConvResponse :=
  if line.startsWith "data: " then
    match parse ((line.drop 6).trim) with
    | none => none
    | some data =>
      match convert data with
      | .ok (some r) => some r
      | .ok none => none
      | .error _ => none
  else none

/-- C6: the generator's output is exactly the per-line output of the lines
before the first `[DONE]` sentinel, in input order. Hence only `data: `
lines produce output, the sentinel stops the stream with no further
yields, malformed payloads and throwing conversions are skipped without
error, each payload yields at most one response, and the input order is
preserved. -/
theorem createStreamGenerator_spec (parse : String → Option Json)
    (convert : Json → Except Unit (Option ConvResponse)) (lines : List String) :
    createStreamGenerator parse convert lines
      = (lines.takeWhile (fun l => !isDoneLine l)).filterMap
          (lineOutput parse convert) := by
  induction lines with
  | nil => rfl
  | cons line rest ih =>
    rw [createStreamGenerator, List.takeWhile_cons]
    by_cases hd : line.startsWith "data: "
    · by_cases hdone : ((line.drop 6).trim) = "[DONE]"
      · have hdl : isDoneLine line = true := by simp [isDoneLine, hd, hdone]
        simp [hd, hdone, hdl]
      · have hnd : isDoneLine line = false := by simp [isDoneLine, hd, hdone]
        cases hp : parse ((line.drop 6).trim) with
        | none => simp [hd, hdone, hnd, hp, lineOutput, ih]
        | some data =>
          cases hc : convert data with
          | error e => simp [hd, hdone, hnd, hp, hc, lineOutput, ih]
          | ok o =>
            cases o with
            | none => simp [hd, hdone, hnd, hp, hc, lineOutput, ih]
            | some r => simp [hd, hdone, hnd, hp, hc, lineOutput, ih]
    · have hnd : isDoneLine line = false := by simp [isDoneLine, hd]
      simp [hd, hnd, lineOutput, ih]

/-! ### Stream orchestrator: completed-tool handling (unnamed/part_002) -/

/-- Status of a tracked tool call. -/
inductive ToolCallState where
  | validating : ToolCallState
  | scheduled : ToolCallState
  | awaitingApproval : ToolCallState
  | executing : ToolCallState
  | success : ToolCallState
  | error : ToolCallState
  | cancelled : ToolCallState
deriving DecidableEq

/-- `success | error | cancelled`. -/
def ToolCallState.isTerminal : ToolCallState → Bool
  | .success => true
  | .error => true
  | .cancelled => true
  | _ => false

/-- A genai `Part`, reduced to what the handler inspects: text parts are
distinguished, all other parts (function responses, inline data) are
opaque. -/
inductive GPart where
  | text (s : String) : GPart
  | other (tag : String) : GPart
deriving DecidableEq

/-- An element of a `PartListUnion` array: `Part | string`. -/
inductive PartUnion where
  | part (p : GPart) : PartUnion
  | str (s : String) : PartUnion
deriving DecidableEq

/-- `PartListUnion = string | Part | (Part | string)[]`. -/
inductive PartListUnion where
  | str (s : String) : PartListUnion
  | part (p : GPart) : PartListUnion
  | list (ps : List PartUnion) : PartListUnion
deriving DecidableEq

/-- Translation of `mergePartListUnions` (part_002 lines 59-69): array
items are spread, other items are pushed as they are. -/
def mergePartListUnions (list : List PartListUnion) : List PartUnion :=
  (list.map (fun item =>
    match item with
    | .list ps => ps
    | .str s => [.str s]
    | .part p => [.part p])).flatten

/-- Translation of the cancelled-batch combination (part_002 lines
815-827): `flatMap` of the response parts, then each string response is
wrapped as a text part. -/
def combineCancelledParts (responsesToAdd : List PartListUnion) : List GPart :=
  ((responsesToAdd.map (fun response =>
    match response with
    | .list ps => ps
    | .str s => [.str s]
    | .part p => [.part p])).flatten).map (fun r =>
      match r with
      | .str s => GPart.text s
      | .part p => p)

/-- A tracked tool call as the completion handler sees it:
`tc.response?.responseParts` collapsed into an option. -/
structure HandlerToolCall where
  callId : String
  name : String
  isClientInitiated : Bool
  prompt_id : String
  status : ToolCallState
  responseParts : Option PartListUnion
deriving DecidableEq

/-- One side effect issued by `handleCompletedTools`, in issue order. -/
inductive HandlerEvent where
  | markToolsAsSubmitted (callIds : List String) : HandlerEvent
  | memoryRefresh : HandlerEvent
  | addHistory (parts : List GPart) : HandlerEvent
  | submitQueryContinuation (merged : List PartUnion) (prompt_id : Option String) :
      HandlerEvent
deriving DecidableEq

/-- Whether an effect is a continuation submission. -/
def HandlerEvent.isSubmit : HandlerEvent → Bool
  | .submitQueryContinuation _ _ => true
  | _ => false

/-- `completedAndReadyToSubmitTools`: terminal calls whose response parts
are defined (part_002 lines 751-771). -/
def readyTools (tools : List HandlerToolCall) : List HandlerToolCall :=
  tools.filter (fun tc => tc.status.isTerminal && tc.responseParts.isSome)

/-- The non-client-initiated ready calls (`casualresearchTools`,
part_002 lines 798-800). -/
def modelFacingTools (tools : List HandlerToolCall) : List HandlerToolCall :=
  (readyTools tools).filter (fun t => !t.isClientInitiated)

/-- The effects issued before the response-submission logic: marking
client-initiated calls submitted (lines 774-779) and the save_memory
refresh (lines 782-796). -/
def clientAndMemoryEvents (processedMemoryTools : List String)
    (tools : List HandlerToolCall) : List HandlerEvent :=
  let clientTools := (readyTools tools).filter (fun t => t.isClientInitiated)
  let ev1 : List HandlerEvent :=
    if clientTools.length > 0 then
      [.markToolsAsSubmitted (clientTools.map (fun t => t.callId))]
    else []
  let newSuccessfulMemorySaves :=
    (readyTools tools).filter (fun t =>
      t.name == "save_memory" && t.status == ToolCallState.success
        && !(processedMemoryTools.contains t.callId))
  let ev2 : List HandlerEvent :=
    if newSuccessfulMemorySaves.length > 0 then [.memoryRefresh] else []
  ev1 ++ ev2

/-- Translation of `handleCompletedTools` (part_002 lines 740-899) as the
ordered list of effects it issues. `console.log` calls and the display
mapping done by the scheduler callback are omitted; `submitQuery` and
`markToolsAsSubmitted` appear as events in call order. -/
def handleCompletedTools (isResponding : Bool)
    (modelSwitchedFromQuotaError : Bool)
    (processedMemoryTools : List String)
    (completedToolCallsFromScheduler : List HandlerToolCall) : List HandlerEvent :=
  if isResponding then []
  else
    let pre := clientAndMemoryEvents processedMemoryTools completedToolCallsFromScheduler
    let casualresearchTools := modelFacingTools completedToolCallsFromScheduler
    if casualresearchTools.length = 0 then pre
    else if casualresearchTools.all (fun tc => tc.status == ToolCallState.cancelled) then
      pre ++ [.addHistory (combineCancelledParts
                (casualresearchTools.map (fun t => t.responseParts.getD (.list [])))),
              .markToolsAsSubmitted (casualresearchTools.map (fun t => t.callId))]
    else if modelSwitchedFromQuotaError then pre
    else
      pre ++ [.submitQueryContinuation
                (mergePartListUnions
                  (casualresearchTools.map (fun t => t.responseParts.getD (.list []))))
                ((casualresearchTools.map (fun t => t.prompt_id)).head?),
              .markToolsAsSubmitted (casualresearchTools.map (fun t => t.callId))]

theorem clientAndMemoryEvents_no_submit (processedMemoryTools : List String)
    (tools : List HandlerToolCall) :
    (clientAndMemoryEvents processedMemoryTools tools).all
      (fun e => !e.isSubmit) = true := by
  simp only [clientAndMemoryEvents, List.all_append]
  split <;> split <;> rfl

/-- C1 counterexample: with `modelSwitchedFromQuotaError` set, a batch
holding one successful non-client tool call with response parts produces
no effects at all — no continuation submission, no history append and no
marking — although the claim's "otherwise" case promises a merged
continuation submission followed by marking. -/
theorem handleCompletedTools_counterexample :
    modelFacingTools
        [⟨"call-1", "read_file", false, "p-1", ToolCallState.success,
          some (.list [.part (.other "fnResponse")])⟩]
      = [⟨"call-1", "read_file", false, "p-1", ToolCallState.success,
          some (.list [.part (.other "fnResponse")])⟩]
    ∧ handleCompletedTools false true []
        [⟨"call-1", "read_file", false, "p-1", ToolCallState.success,
          some (.list [.part (.other "fnResponse")])⟩] = [] := by
  exact ⟨rfl, rfl⟩

/-- C1, amended: when the handler runs while no response is streaming and
the model was not switched by a quota error, it takes the
non-client-initiated terminal calls with response parts and: if all of
them are cancelled, appends their combined response parts to history as a
single user message and marks them submitted, issuing no continuation
submission anywhere; otherwise it merges their response parts into a
single part list and issues exactly one continuation submission, marking
the calls submitted only after it. -/
theorem handleCompletedTools_amended
    (processedMemoryTools : List String) (tools : List HandlerToolCall)
    (hml : modelFacingTools tools ≠ []) :
    ((modelFacingTools tools).all
        (fun tc => tc.status == ToolCallState.cancelled) = true →
      handleCompletedTools false false processedMemoryTools tools
        = clientAndMemoryEvents processedMemoryTools tools
          ++ [.addHistory (combineCancelledParts
                ((modelFacingTools tools).map (fun t => t.responseParts.getD (.list [])))),
              .markToolsAsSubmitted ((modelFacingTools tools).map (fun t => t.callId))]
      ∧ (handleCompletedTools false false processedMemoryTools tools).all
          (fun e => !e.isSubmit) = true)
    ∧ ((modelFacingTools tools).all
        (fun tc => tc.status == ToolCallState.cancelled) = false →
      handleCompletedTools false false processedMemoryTools tools
        = clientAndMemoryEvents processedMemoryTools tools
          ++ [.submitQueryContinuation
                (mergePartListUnions
                  ((modelFacingTools tools).map (fun t => t.responseParts.getD (.list []))))
                ((modelFacingTools tools).map (fun t => t.prompt_id)).head?,
              .markToolsAsSubmitted ((modelFacingTools tools).map (fun t => t.callId))]) := by
  have hlen : ¬((modelFacingTools tools).length = 0) := by
    intro h
    exact hml (List.length_eq_zero.mp h)
  constructor
  · intro hall
    have heq : handleCompletedTools false false processedMemoryTools tools
        = clientAndMemoryEvents processedMemoryTools tools
          ++ [.addHistory (combineCancelledParts
                ((modelFacingTools tools).map (fun t => t.responseParts.getD (.list [])))),
              .markToolsAsSubmitted ((modelFacingTools tools).map (fun t => t.callId))] := by
      simp only [handleCompletedTools, hall, hlen]
      simp
    refine ⟨heq, ?_⟩
    rw [heq, List.all_append]
    rw [clientAndMemoryEvents_no_submit]
    rfl
  · intro hall
    simp only [handleCompletedTools, hall, hlen]
    simp

/-- Witness for the amended C1 theorem: a single cancelled non-client
write_file call with a string response part is appended to history as a
text part and marked submitted, with no continuation submission. -/
theorem handleCompletedTools_amended_witness :
    handleCompletedTools false false []
        [⟨"c9", "write_file", false, "p7", ToolCallState.cancelled,
          some (.str "Tool execution cancelled.")⟩]
      = [.addHistory [GPart.text "Tool execution cancelled."],
         .markToolsAsSubmitted ["c9"]] := by
  have h := (handleCompletedTools_amended []
      [⟨"c9", "write_file", false, "p7", ToolCallState.cancelled,
        some (.str "Tool execution cancelled.")⟩] (by decide)).1 (by decide)
  rw [h.1]
  rfl

/-! ### Stream orchestrator: submission serialization and prompt counter
(unnamed/part_002 lines 170-191 and 609-721) -/

/-- The outward streaming state. -/
inductive StreamingState where
  | idle : StreamingState
  | responding : StreamingState
  | waitingForConfirmation : StreamingState
deriving DecidableEq

/-- A tracked tool call as the `streamingState` memo sees it. -/
structure SchedToolCall where
  status : ToolCallState
  responseSubmittedTocasualresearch : Bool
deriving DecidableEq

/-- Translation of the `streamingState` memo (part_002 lines 170-191). -/
def streamingStateOf (isResponding : Bool) (toolCalls : List SchedToolCall) :
    StreamingState :=
  if toolCalls.any (fun tc => tc.status == ToolCallState.awaitingApproval) then
    .waitingForConfirmation
  else if isResponding
      || toolCalls.any (fun tc =>
          tc.status == ToolCallState.executing
          || tc.status == ToolCallState.scheduled
          || tc.status == ToolCallState.validating
          || ((tc.status == ToolCallState.success
              || tc.status == ToolCallState.error
              || tc.status == ToolCallState.cancelled)
              && !tc.responseSubmittedTocasualresearch)) then
    .responding
  else .idle

/-- The orchestrator state read and written by `submitQuery`.
Modelled from the spec: `promptCount` itself lives in the session-stats
context (SessionContext.tsx, not under src/); per the spec it is a
monotone counter and `startNewPrompt` increments it by one. -/
structure OrchState where
  isResponding : Bool
  toolCalls : List SchedToolCall
  promptCount : Nat
  quotaErrorOccurred : Bool
deriving DecidableEq

/-- Observable effects of one orchestrator step: whether the guard
rejected the submission, how many backend turns were started, how many
prompt-counter increments were performed, and how many history items the
query pre-processing appended. -/
structure StepEffects where
  guardRejected : Bool
  backendCalls : Nat
  promptIncrements : Nat
  historyWrites : Nat
deriving DecidableEq

/-- Translation of the entry path of `submitQuery` (part_002 lines
609-656) as one cooperative step. `prepareProceeds` is the outcome of
`prepareQueryForcasualresearch` (false covers the empty query, handled
slash commands, shell handling and schedule_tool routing) and
`prepareWrites` the history items that pre-processing appends. Streaming
the turn and its `finally` are a separate `turnEnd` step, matching the
spec's cooperative scheduling model. -/
def submitQuery (st : OrchState) (isContinuation : Bool)
    (prepareProceeds : Bool) (prepareWrites : Nat) : OrchState × StepEffects :=
  if (streamingStateOf st.isResponding st.toolCalls == .responding
      || streamingStateOf st.isResponding st.toolCalls == .waitingForConfirmation)
      && !isContinuation then
    (st, ⟨true, 0, 0, 0⟩)
  else
    let st1 := if !isContinuation then { st with quotaErrorOccurred := false } else st
    if !prepareProceeds then (st1, ⟨false, 0, 0, prepareWrites⟩)
    else
      let st2 :=
        if !isContinuation then { st1 with promptCount := st1.promptCount + 1 }
        else st1
      ({ st2 with isResponding := true },
        ⟨false, 1, if !isContinuation then 1 else 0, prepareWrites⟩)

/-- One cooperative orchestrator event: a `submitQuery` call, the end of a
turn (the `finally` clearing `isResponding`), or the scheduler replacing
the tracked tool calls. -/
inductive OrchEvent where
  | submit (isContinuation : Bool) (prepareProceeds : Bool)
      (prepareWrites : Nat) : OrchEvent
  | turnEnd : OrchEvent
  | toolsUpdate (toolCalls : List SchedToolCall) : OrchEvent
deriving DecidableEq

/-- One orchestrator step. -/
def orchStep (st : OrchState) (ev : OrchEvent) : OrchState × StepEffects :=
  match ev with
  | .submit isContinuation prepareProceeds prepareWrites =>
      submitQuery st isContinuation prepareProceeds prepareWrites
  | .turnEnd => ({ st with isResponding := false }, ⟨false, 0, 0, 0⟩)
  | .toolsUpdate tcs => ({ st with toolCalls := tcs }, ⟨false, 0, 0, 0⟩)

/-- Folding a list of events through the orchestrator. -/
def orchRun (st : OrchState) : List OrchEvent → OrchState
  | [] => st
  | ev :: rest => orchRun (orchStep st ev).1 rest

/-- Total prompt-counter increments along a run. -/
def totalPromptIncrements (st : OrchState) : List OrchEvent → Nat
  | [] => 0
  | ev :: rest =>
      (orchStep st ev).2.promptIncrements
        + totalPromptIncrements (orchStep st ev).1 rest

theorem orchStep_promptCount (st : OrchState) (ev : OrchEvent) :
    (orchStep st ev).1.promptCount
      = st.promptCount + (orchStep st ev).2.promptIncrements := by
  cases ev with
  | submit c p w =>
    rw [orchStep, submitQuery]
    split
    · rfl
    · cases hp : p <;> cases hc : c <;> simp
  | turnEnd => rfl
  | toolsUpdate tcs => rfl

/-- C2: while the streaming state is `Responding` or
`WaitingForConfirmation`, a non-continuation `submitQuery` returns
immediately with the state unchanged — no backend turn, no prompt-counter
increment, no history write; a continuation submission is never rejected
by that guard; and along any run, a non-continuation submission only ever
starts a backend turn from the `Idle` state. -/
theorem submitQuery_serialization (st : OrchState) :
    (∀ (proceeds : Bool) (w : Nat),
      streamingStateOf st.isResponding st.toolCalls = .responding ∨
        streamingStateOf st.isResponding st.toolCalls = .waitingForConfirmation →
      submitQuery st false proceeds w = (st, ⟨true, 0, 0, 0⟩))
    ∧ (∀ (proceeds : Bool) (w : Nat),
      (submitQuery st true proceeds w).2.guardRejected = false)
    ∧ (∀ (pre : List OrchEvent) (proceeds : Bool) (w : Nat),
      (orchStep (orchRun st pre) (.submit false proceeds w)).2.backendCalls ≥ 1 →
      streamingStateOf (orchRun st pre).isResponding (orchRun st pre).toolCalls
        = .idle) := by
  refine ⟨fun proceeds w h => ?_, fun proceeds w => ?_, fun pre proceeds w h => ?_⟩
  · rcases h with h | h <;> simp [submitQuery, h]
  · cases proceeds <;> simp [submitQuery]
  · cases hss : streamingStateOf (orchRun st pre).isResponding
        (orchRun st pre).toolCalls with
    | idle => rfl
    | responding =>
      rw [orchStep, submitQuery, hss] at h
      simp at h
    | waitingForConfirmation =>
      rw [orchStep, submitQuery, hss] at h
      simp at h

/-- Witness for C2 at a concrete responding state: a non-continuation
submission is rejected without any effect. -/
theorem submitQuery_serialization_witness :
    submitQuery ⟨true, [], 0, false⟩ false true 3
      = (⟨true, [], 0, false⟩, ⟨true, 0, 0, 0⟩) :=
  (submitQuery_serialization ⟨true, [], 0, false⟩).1 true 3 (Or.inl rfl)

/-- C8: the session prompt counter after a run equals its initial value
plus the per-step increments; a non-continuation submission increments it
exactly as many times as it starts backend turns (once when it proceeds,
never when rejected or pre-empted); a continuation submission never
increments it; and the counter is monotonically non-decreasing. -/
theorem promptCount_invariants (st : OrchState) (events : List OrchEvent) :
    (orchRun st events).promptCount
        = st.promptCount + totalPromptIncrements st events
    ∧ (∀ (proceeds : Bool) (w : Nat),
        (submitQuery st false proceeds w).2.promptIncrements
          = (submitQuery st false proceeds w).2.backendCalls)
    ∧ (∀ (proceeds : Bool) (w : Nat),
        (submitQuery st true proceeds w).2.promptIncrements = 0)
    ∧ st.promptCount ≤ (orchRun st events).promptCount := by
  have hmain : ∀ (evs : List OrchEvent) (s : OrchState),
      (orchRun s evs).promptCount = s.promptCount + totalPromptIncrements s evs := by
    intro evs
    induction evs with
    | nil => intro s; simp [orchRun, totalPromptIncrements]
    | cons ev rest ih =>
      intro s
      rw [orchRun, totalPromptIncrements, ih, orchStep_promptCount]
      omega
  refine ⟨hmain events st, fun proceeds w => ?_, fun proceeds w => ?_, ?_⟩
  · rw [submitQuery]
    split
    · rfl
    · cases proceeds <;> simp
  · rw [submitQuery]
    split
    · rfl
    · cases proceeds <;> simp
  · rw [hmain events st]
    omega

/-! ### MCP client: connection and discovery (mcp-client.ts) -/

/-- MCP server status. -/
inductive MCPServerStatus where
  | disconnected : MCPServerStatus
  | connecting : MCPServerStatus
  | connected : MCPServerStatus
deriving DecidableEq

/-- Modelled from the spec: `PromptRegistry`
(prompts/prompt-registry.ts is not under src/). The spec says discovered
prompts are registered; the registry is modelled as an append-only list
shared by all servers, `registerPrompt` appends and `getAllPrompts`
returns the whole list. -/
structure PromptRegistry where
  prompts : List String
deriving DecidableEq

/-- Modelled from the spec: append a prompt registration. -/
def registerPrompt (reg : PromptRegistry) (name : String) : PromptRegistry :=
  ⟨reg.prompts ++ [name]⟩

/-- Modelled from the spec: all registered prompts, from every server. -/
def getAllPrompts (reg : PromptRegistry) : List String :=
  reg.prompts

/-- Translation of `discoverPrompts` (mcp-client.ts lines 674-738): no
prompts capability or a throwing `prompts/list` request yields `[]`;
otherwise each listed prompt is registered and the function returns
`promptRegistry.getAllPrompts()` — the whole shared registry. -/
def discoverPrompts (hasPromptsCapability : Bool)
    (promptsListResult : Option (List String)) (promptRegistry : PromptRegistry) :
    List String × PromptRegistry :=
  if !hasPromptsCapability then ([], promptRegistry)
  else
    match promptsListResult with
    | none => ([], promptRegistry)
    | some names =>
        let reg2 := names.foldl (fun reg n => registerPrompt reg n) promptRegistry
        (getAllPrompts reg2, reg2)

/-- A function declaration offered by an MCP server. -/
structure MCPFuncDecl where
  name : String
  parametersJsonSchema : Json

/-- Translation of `discoverTools` (mcp-client.ts lines 602-665): a
throwing `tool()` call (outer `none`) and a non-array
`functionDeclarations` (inner `none`) both yield `[]`; otherwise the
declarations whose parameter schema passes `hasValidTypes` are kept
(`isEnabled` always holds). -/
def discoverTools : Option (Option (List MCPFuncDecl)) → List MCPFuncDecl
  | none => []
  | some none => []
  | some (some decls) =>
      decls.filter (fun fd => hasValidTypes fd.parametersJsonSchema)

/-- The outcomes of the awaited calls inside `connectAndDiscover`:
whether `connectToMcpServer` produced a client (transport creation and
connection failures are both caught there and return `undefined`), the
prompts capability flag, the `prompts/list` outcome, and the tool
discovery outcome. -/
structure MCPDiscoveryEnv where
  connectOk : Bool
  hasPromptsCapability : Bool
  promptsListResult : Option (List String)
  toolsResult : Option (Option (List MCPFuncDecl))

/-- Translation of `connectAndDiscover` (mcp-client.ts lines 465-530):
the ordered status updates it performs, the prompt registry it leaves
behind, and the tools it registers. -/
def connectAndDiscover (env : MCPDiscoveryEnv) (promptRegistry : PromptRegistry) :
    List MCPServerStatus × PromptRegistry × List MCPFuncDecl :=
  if !env.connectOk then
    ([.connecting, .disconnected], promptRegistry, [])
  else
    let pr := discoverPrompts env.hasPromptsCapability env.promptsListResult
      promptRegistry
    let tools := discoverTools env.toolsResult
    if pr.1.length = 0 && tools.length = 0 then
      ([.connecting, .disconnected], pr.2, [])
    else
      ([.connecting, .connected], pr.2, tools)

/-- The module-level MCP status state (mcp-client.ts lines 75-129):
the status map, the registered listeners, and the notification log. -/
structure MCPState where
  serverStatuses : List (String × MCPServerStatus)
  statusChangeListeners : List Nat
  notifications : List (Nat × String × MCPServerStatus)

/-- Translation of `updateMCPServerStatus` (mcp-client.ts lines 120-129):
set the map entry and notify every registered listener. -/
def updateMCPServerStatus (st : MCPState) (serverName : String)
    (status : MCPServerStatus) : MCPState :=
  { st with
    serverStatuses :=
      (serverName, status) :: st.serverStatuses.filter (fun p => !(p.1 == serverName)),
    notifications :=
      st.notifications
        ++ st.statusChangeListeners.map (fun l => (l, serverName, status)) }

/-- Apply a list of status updates in order. -/
def applyStatusUpdates (st : MCPState) (serverName : String) :
    List MCPServerStatus → MCPState
  | [] => st
  | s :: rest =>
      applyStatusUpdates (updateMCPServerStatus st serverName s) serverName rest

theorem applyStatusUpdates_notifications (serverName : String)
    (updates : List MCPServerStatus) (st : MCPState) :
    (applyStatusUpdates st serverName updates).notifications
      = st.notifications
        ++ (updates.map (fun s =>
            st.statusChangeListeners.map (fun l => (l, serverName, s)))).flatten
    ∧ (applyStatusUpdates st serverName updates).statusChangeListeners
      = st.statusChangeListeners := by
  induction updates generalizing st with
  | nil => simp [applyStatusUpdates]
  | cons s rest ih =>
    rw [applyStatusUpdates]
    obtain ⟨ih1, ih2⟩ := ih (updateMCPServerStatus st serverName s)
    constructor
    · rw [ih1]
      simp [updateMCPServerStatus, List.append_assoc]
    · rw [ih2]
      rfl

/-- C7 counterexample: `discoverPrompts` returns the whole shared prompt
registry, so a server that declares the prompts capability and lists zero
prompts — and offers zero tools — is still marked CONNECTED when another
server registered a prompt earlier; the claim requires DISCONNECTED when
nothing was discovered from this server. -/
theorem connectAndDiscover_counterexample :
    (connectAndDiscover ⟨true, true, some [], some (some [])⟩ ⟨["other-server-prompt"]⟩).1
      = [.connecting, .connected]
    ∧ (connectAndDiscover ⟨true, true, some [], some (some [])⟩
        ⟨["other-server-prompt"]⟩).2.2 = [] := by
  exact ⟨rfl, rfl⟩

/-- C7, amended: `connectAndDiscover` first sets CONNECTING, performs
exactly one further status update, and ends CONNECTED iff the connection
succeeded and either prompt discovery returned a non-empty list — which is
the whole shared registry, so prompts registered by other servers count —
or at least one tool passed validation; in every other case it ends
DISCONNECTED; and every status update notifies all registered listeners. -/
theorem connectAndDiscover_status (env : MCPDiscoveryEnv) (reg : PromptRegistry)
    (st : MCPState) (serverName : String) :
    ((connectAndDiscover env reg).1).head? = some .connecting
    ∧ ((connectAndDiscover env reg).1 = [.connecting, .connected]
        ↔ env.connectOk = true
          ∧ ((discoverPrompts env.hasPromptsCapability env.promptsListResult reg).1 ≠ []
              ∨ discoverTools env.toolsResult ≠ []))
    ∧ ((connectAndDiscover env reg).1 = [.connecting, .connected]
        ∨ (connectAndDiscover env reg).1 = [.connecting, .disconnected])
    ∧ (applyStatusUpdates st serverName ((connectAndDiscover env reg).1)).notifications
        = st.notifications
          ++ (((connectAndDiscover env reg).1).map (fun s =>
              st.statusChangeListeners.map (fun l => (l, serverName, s)))).flatten := by
  refine ⟨?_, ?_, ?_, (applyStatusUpdates_notifications serverName _ st).1⟩
  · rw [connectAndDiscover]
    cases hc : env.connectOk with
    | false => rfl
    | true =>
      simp only [Bool.not_true, Bool.false_eq_true, if_false]
      split <;> rfl
  · rw [connectAndDiscover]
    cases hc : env.connectOk with
    | false => simp
    | true =>
      simp only [Bool.not_true, Bool.false_eq_true, if_false]
      split
      · rename_i hzero
        rw [Bool.and_eq_true_iff] at hzero
        simp only [decide_eq_true_eq] at hzero
        constructor
        · intro h
          simp at h
        · intro ⟨_, h⟩
          rcases h with h | h
          · exact absurd (List.length_eq_zero.mp hzero.1) h
          · exact absurd (List.length_eq_zero.mp hzero.2) h
      · rename_i hzero
        rw [Bool.and_eq_true_iff] at hzero
        simp only [decide_eq_true_eq] at hzero
        constructor
        · intro _
          refine ⟨by trivial, ?_⟩
          by_cases hp : (discoverPrompts env.hasPromptsCapability
              env.promptsListResult reg).1 = []
          · refine Or.inr ?_
            intro ht
            exact hzero ⟨by rw [hp]; rfl, by rw [ht]; rfl⟩
          · exact Or.inl hp
        · intro _
          rfl
  · rw [connectAndDiscover]
    cases hc : env.connectOk with
    | false => exact Or.inr rfl
    | true =>
      simp only [Bool.not_true, Bool.false_eq_true, if_false]
      split
      · exact Or.inr rfl
      · exact Or.inl rfl

/-! ### Checkpoint snapshots (unnamed/part_002 lines 906-1004) -/

/-- JS truthiness filter for an optional string: empty and absent collapse
to `none`. -/
def truthyStr : Option String → Option String
  | some s => if s = "" then none else some s
  | none => none

/-- `path.basename`: the component after the last separator (trailing
separators are outside the model). -/
def basename (p : String) : String :=
  (p.toList.foldl (fun acc c => if c = '/' then [] else acc ++ [c]) []).asString

/-- A tracked tool call as the checkpoint effect sees it. -/
structure RestorableToolCall where
  name : String
  status : ToolCallState
  args : List (String × Json)

/-- `toolCall.request.args['file_path'] as string`, combined with the
`!filePath` guard and the `path.basename` call: a falsy value is skipped
at the guard, and a truthy non-string makes `basename` throw inside the
per-call `try`, which is caught and also skips the call; so a checkpoint
is attempted only for a non-empty string. -/
def restorableFilePath (args : List (String × Json)) : Option String :=
  match lookupField args "file_path" with
  | some (.str s) => if s = "" then none else some s
  | _ => none

/-- The outcomes of the awaited calls inside `saveRestorableToolCalls`:
the config flags, the mkdir outcome (an EEXIST error continues, any other
error aborts the whole effect), the git snapshot results (modelled as
constant within one invocation, as is the timestamp), and the two
histories as serialized JSON. -/
structure CheckpointEnv where
  checkpointingEnabled : Bool
  projectTempDir : Option String
  mkdirOk : Bool
  createFileSnapshotResult : Option String
  currentCommitHash : Option String
  timestamp : String
  history : Json
  clientHistory : Json

/-- Translation of `saveRestorableToolCalls` (part_002 lines 906-1004) as
the list of `fs.writeFile` calls it issues, in order: each pair is the
destination path and the JSON value serialized into the file. -/
def saveRestorableToolCalls (env : CheckpointEnv)
    (toolCalls : List RestorableToolCall) : List (String × Json) :=
  if !env.checkpointingEnabled then []
  else
    let restorableToolCalls := toolCalls.filter (fun tc =>
      (tc.name == "replace" || tc.name == "write_file")
        && tc.status == ToolCallState.awaitingApproval)
    if restorableToolCalls.length > 0 then
      match env.projectTempDir with
      | none => []
      | some tempDir =>
        if !env.mkdirOk then []
        else
          restorableToolCalls.filterMap (fun tc =>
            match restorableFilePath tc.args with
            | none => none
            | some filePath =>
              match (match truthyStr env.createFileSnapshotResult with
                     | some h => some h
                     | none => truthyStr env.currentCommitHash) with
              | none => none
              | some commitHash =>
                some (tempDir ++ "/checkpoints/" ++ env.timestamp ++ "-"
                        ++ basename filePath ++ "-" ++ tc.name ++ ".json",
                      Json.obj [("history", env.history),
                        ("clientHistory", env.clientHistory),
                        ("toolCall", Json.obj [("name", Json.str tc.name),
                          ("args", Json.obj tc.args)]),
                        ("commitHash", Json.str commitHash),
                        ("filePath", Json.str filePath)]))
    else []

/-- C9: whenever checkpointing is enabled, the project temp dir is
configured, the checkpoint directory is creatable, a tracked call named
`replace` or `write_file` awaits approval with a non-empty string
`file_path` argument, and a commit hash is obtained (snapshot or current
head), then a write of
`<projectTempDir>/checkpoints/<timestamp>-<basename>-<toolName>.json` is
issued whose JSON content consists exactly of the fields `history`,
`clientHistory`, `toolCall` (with `name` and `args`), `commitHash` and
`filePath`. -/
theorem saveRestorableToolCalls_writes_checkpoint (env : CheckpointEnv)
    (tc : RestorableToolCall) (toolCalls : List RestorableToolCall)
    (tempDir filePath commitHash : String)
    (hen : env.checkpointingEnabled = true)
    (hdir : env.projectTempDir = some tempDir)
    (hmk : env.mkdirOk = true)
    (hmem : tc ∈ toolCalls)
    (hname : tc.name = "replace" ∨ tc.name = "write_file")
    (hstatus : tc.status = ToolCallState.awaitingApproval)
    (hfp : restorableFilePath tc.args = some filePath)
    (hhash : (match truthyStr env.createFileSnapshotResult with
              | some h => some h
              | none => truthyStr env.currentCommitHash) = some commitHash) :
    (tempDir ++ "/checkpoints/" ++ env.timestamp ++ "-" ++ basename filePath
        ++ "-" ++ tc.name ++ ".json",
      Json.obj [("history", env.history),
        ("clientHistory", env.clientHistory),
        ("toolCall", Json.obj [("name", Json.str tc.name),
          ("args", Json.obj tc.args)]),
        ("commitHash", Json.str commitHash),
        ("filePath", Json.str filePath)])
      ∈ saveRestorableToolCalls env toolCalls := by
  have hpred : ((tc.name == "replace" || tc.name == "write_file")
      && tc.status == ToolCallState.awaitingApproval) = true := by
    rcases hname with h | h <;> simp [h, hstatus]
  have hmemf : tc ∈ toolCalls.filter (fun tc =>
      (tc.name == "replace" || tc.name == "write_file")
        && tc.status == ToolCallState.awaitingApproval) :=
    List.mem_filter.mpr ⟨hmem, hpred⟩
  have hlen : (toolCalls.filter (fun tc =>
      (tc.name == "replace" || tc.name == "write_file")
        && tc.status == ToolCallState.awaitingApproval)).length > 0 :=
    List.length_pos.mpr (List.ne_nil_of_mem hmemf)
  rw [saveRestorableToolCalls, hen]
  simp only [Bool.not_true, Bool.false_eq_true, if_false, if_pos hlen, hdir, hmk]
  rw [List.mem_filterMap]
  refine ⟨tc, hmemf, ?_⟩
  rw [hfp, hhash]

/-- Witness for C9 at a concrete environment and tool call. -/
theorem saveRestorableToolCalls_writes_checkpoint_witness :
    ("/tmp/proj/checkpoints/2025-01-01T00-00-00_000Z-notes.txt-write_file.json",
      Json.obj [("history", Json.arr []),
        ("clientHistory", Json.arr []),
        ("toolCall", Json.obj [("name", Json.str "write_file"),
          ("args", Json.obj [("file_path", Json.str "/home/u/notes.txt")])]),
        ("commitHash", Json.str "abc123"),
        ("filePath", Json.str "/home/u/notes.txt")])
      ∈ saveRestorableToolCalls
          ⟨true, some "/tmp/proj", true, some "abc123", none,
            "2025-01-01T00-00-00_000Z", Json.arr [], Json.arr []⟩
          [⟨"write_file", ToolCallState.awaitingApproval,
            [("file_path", Json.str "/home/u/notes.txt")]⟩] := by
  have h := saveRestorableToolCalls_writes_checkpoint
      ⟨true, some "/tmp/proj", true, some "abc123", none,
        "2025-01-01T00-00-00_000Z", Json.arr [], Json.arr []⟩
      ⟨"write_file", ToolCallState.awaitingApproval,
        [("file_path", Json.str "/home/u/notes.txt")]⟩
      [⟨"write_file", ToolCallState.awaitingApproval,
        [("file_path", Json.str "/home/u/notes.txt")]⟩]
      "/tmp/proj" "/home/u/notes.txt" "abc123"
      rfl rfl rfl (List.mem_singleton.mpr rfl) (Or.inr rfl) rfl (by rfl) (by rfl)
  have hb : basename "/home/u/notes.txt" = "notes.txt" := by rfl
  rw [hb] at h
  simpa using h
